import Mathlib

/-!
Verification of the core logic of the PSX portfolio backend
(agents/portfolio_agent.py): the deterministic recommendation-scoring
algorithm, the stock-record normalizer, the response assembler and the
agent orchestration loop, together with the market-session status rule.

Modelling conventions:
* Python floats are modelled as rationals (`ℚ`); the data of interest is
  ordinary decimal market data, so no NaN/infinity behaviour is relied on.
* Dynamically-typed JSON payloads are modelled by the inductive `Json`;
  a Python `dict` is a list of key/value pairs looked up by first match.
* A Python function that can raise and whose caller catches the exception
  and substitutes `None` is modelled as returning `Option _`, with `none`
  exactly on the inputs where the Python code raises (or returns `None`).
-/

/-- A JSON-like dynamic value, as produced by `json.loads` on tool results.
The tool layer produces only null, numbers, strings, arrays and objects. -/
inductive Json where
  | null : Json
  | num (q : ℚ) : Json
  | str (s : String) : Json
  | arr (items : List Json) : Json
  | obj (fields : List (String × Json)) : Json

/-- Python `dict.get(k)`: first binding of key `k`, if any. -/
def jlookup (kvs : List (String × Json)) (k : String) : Option Json :=
  (kvs.find? (fun p => p.1 == k)).map (fun p => p.2)

/-- Python `k in dict`. -/
def hasKey (kvs : List (String × Json)) (k : String) : Bool :=
  kvs.any (fun p => p.1 == k)

/-- Numeric view of a JSON value: `some q` exactly when the value is a
number (the only case in which Python arithmetic/comparisons on it do not
raise `TypeError`). -/
def asNum : Json → Option ℚ
  | Json.num q => some q
  | _ => none

/-- Python truthiness of a JSON value (`bool(v)`). -/
def jsonTruthy : Json → Bool
  | Json.null => false
  | Json.num q => decide (q ≠ 0)
  | Json.str s => decide (s ≠ "")
  | Json.arr items => !items.isEmpty
  | Json.obj fields => !fields.isEmpty

/-- The normalized per-stock data dictionary built by `_format_stock_data`
(the fields read by `_calculate_recommendation` and by the assembler;
`volume`, which no logic ever reads, is omitted).  Optional indicator
fields are `none` when the key is missing or maps to JSON null. -/
structure StockData where
  symbol : String
  price : ℚ
  change : ℚ
  changePercent : ℚ
  rsi : Option ℚ
  sma20 : Option ℚ
  ema50 : Option ℚ
deriving DecidableEq

/-- A stock record as returned to the caller: the normalized data plus the
recommendation label and reason added by `_format_stock_data`. -/
structure StockRecord extends StockData where
  recommendation : String
  reason : String
deriving DecidableEq

/-- Python `", ".join`. -/
def joinComma (l : List String) : String :=
  String.intercalate ", " l

/-- Lines 356-369 of `_calculate_recommendation`: the RSI block, updating
the accumulated (score, reasons) pair.  `rsi is not None` guards the whole
block. -/
def rsiBlock (rsi : Option ℚ) (acc : Int × List String) : Int × List String :=
  match rsi with
  | none => acc
  | some r =>
    if r < 30 then (acc.1 + 3, acc.2 ++ ["oversold"])
    else if r < 40 then (acc.1 + 1, acc.2 ++ ["undervalued"])
    else if r > 70 then (acc.1 - 3, acc.2 ++ ["overbought"])
    else if r > 60 then (acc.1 - 1, acc.2 ++ ["overvalued"])
    else acc

/-- Lines 371-383: the change-percent block. -/
def changeBlock (c : ℚ) (acc : Int × List String) : Int × List String :=
  if c > 5 then (acc.1 - 2, acc.2 ++ ["strong rally"])
  else if c > 2 then (acc.1 + 1, acc.2 ++ ["positive momentum"])
  else if c < -5 then (acc.1 + 2, acc.2 ++ ["big dip"])
  else if c < -2 then (acc.1 + 1, acc.2 ++ ["slight pullback"])
  else acc

/-- Lines 385-392: the moving-average (trend) block.  The Python guard is
`if sma20 and ema50 and price:`, i.e. all three must be truthy — for the
numeric-or-None values present in a normalized record this means present
and nonzero. -/
def trendBlock (price : ℚ) (sma20 ema50 : Option ℚ)
    (acc : Int × List String) : Int × List String :=
  match sma20, ema50 with
  | some a, some e =>
    if a ≠ 0 ∧ e ≠ 0 ∧ price ≠ 0 then
      if price > a ∧ a > e then (acc.1 + 2, acc.2 ++ ["strong uptrend"])
      else if price < a ∧ a < e then (acc.1 - 2, acc.2 ++ ["downtrend"])
      else acc
    else acc
  | _, _ => acc

/-- Lines 347-392 of `_calculate_recommendation`: the accumulated
(score, reasons) pair after the three analysis blocks, starting from
`score = 0`, `reasons = []`. -/
def scoreAndReasons (s : StockData) : Int × List String :=
  trendBlock s.price s.sma20 s.ema50
    (changeBlock s.changePercent (rsiBlock s.rsi (0, [])))

/-- Lines 394-408 of `_calculate_recommendation`: threshold the score into
a label and build the reason string.  Returns (recommendation, reason,
score) exactly as the Python function does. -/
def calcRecommendation (s : StockData) : String × String × Int :=
  let sr := scoreAndReasons s
  if sr.1 ≥ 3 then
    ("BUY",
     if sr.2.isEmpty then "Good value"
     else "Good opportunity - " ++ joinComma (sr.2.take 2),
     sr.1)
  else if sr.1 ≤ -3 then
    ("SELL",
     if sr.2.isEmpty then "Overpriced"
     else "Take profits - " ++ joinComma (sr.2.take 2),
     sr.1)
  else
    ("HOLD",
     if sr.2.isEmpty then "Stable, wait and see"
     else "Mixed signals - " ++ joinComma (sr.2.take 2),
     sr.1)

/-- Python `str.replace('PSX:', '')` on the underlying characters: scan
left to right, removing each (non-overlapping) occurrence of the
market-qualifier text. -/
def stripAllPSX : List Char → List Char
  | [] => []
  | 'P' :: 'S' :: 'X' :: ':' :: rest => stripAllPSX rest
  | c :: rest => c :: stripAllPSX rest

/-- Python `str.replace('PSX:', '')`. -/
def stripPSX (s : String) : String :=
  String.mk (stripAllPSX s.data)

/-- Python `str.strip()`: drop whitespace from both ends. -/
def pyStrip (s : String) : String :=
  String.mk
    (((s.data.dropWhile Char.isWhitespace).reverse.dropWhile
      Char.isWhitespace).reverse)

/-- Resolution of the optional indicator fields `rsi`, `sma20`, `ema50`
as stored in the normalized dictionary: a JSON number is kept, a missing
key or JSON null (and any value the scoring code never successfully
compares) is absent. -/
def optField (v : Option Json) : Option ℚ :=
  match v with
  | some (Json.num q) => some q
  | _ => none

/-- Is this JSON value null? -/
def isNullJ : Json → Bool
  | Json.null => true
  | _ => false

/-- A present `rsi` value makes `_calculate_recommendation` raise exactly
when it is neither null nor numeric (`rsi is not None` and then `rsi < 30`
raises `TypeError`). -/
def badRsi (v : Option Json) : Bool :=
  v.any (fun w => !isNullJ w && (asNum w).isNone)

/-- `_format_stock_data` (lines 295-340 of portfolio_agent.py), including
the call to `_calculate_recommendation`: turn one raw provider-shaped JSON
record into a stock record, or `none` whenever the Python code raises
internally (caught by its blanket `try/except`, which returns `None`).
The exception sites modelled as `none`:
* the raw value is not an object (`.get` on a non-dict raises),
* a `symbol` value that is present but not a string (`.replace` raises),
* a `price_data` value that is not an object, or a present
  `technical_indicators` value that is not an object,
* a non-numeric value at either operand of the `change = price - open`
  subtraction,
* a non-numeric `change_percent`/`changePercent` (always compared inside
  `_calculate_recommendation`),
* a present, non-null, non-numeric `rsi` (compared once not `None`),
* non-numeric but truthy `sma20`/`ema50` when the trend guard
  `sma20 and ema50 and price` is truthy (the comparison then raises).
A falsy non-numeric indicator value (such as an empty string) behaves
exactly like an absent one in all code that reads the record, and is
modelled as absent. -/
def formatStockData (raw : Json) : Option StockRecord :=
  match raw with
  | Json.obj kvs =>
    let symJ := (jlookup kvs "symbol").getD (Json.str "")
    match symJ with
    | Json.str s0 =>
      let symbol := stripPSX s0
      match jlookup kvs "price_data" with
      | some pd =>
        -- Detailed stock-analysis format.
        match pd with
        | Json.obj pdkvs =>
          match (jlookup kvs "technical_indicators").getD (Json.obj []) with
          | Json.obj tkvs =>
            let curJ := (jlookup pdkvs "current_price").getD (Json.num 0)
            let openJ := (jlookup pdkvs "open").getD (Json.num 0)
            let cpJ := (jlookup pdkvs "change_percent").getD (Json.num 0)
            match asNum curJ, asNum openJ, asNum cpJ with
            | some price, some openPrice, some changePercent =>
              let rsiJ := jlookup tkvs "rsi"
              let smaJ := jlookup tkvs "sma20"
              let emaJ := jlookup tkvs "ema50"
              if badRsi rsiJ then
                none
              else if jsonTruthy (smaJ.getD Json.null)
                  && jsonTruthy (emaJ.getD Json.null)
                  && decide (price ≠ 0)
                  && ((asNum (smaJ.getD Json.null)).isNone
                      || (asNum (emaJ.getD Json.null)).isNone) then
                none
              else
                let sd : StockData :=
                  { symbol := symbol, price := price,
                    change := price - openPrice,
                    changePercent := changePercent,
                    rsi := optField rsiJ,
                    sma20 := optField smaJ, ema50 := optField emaJ }
                let rr := calcRecommendation sd
                some { toStockData := sd,
                       recommendation := rr.1, reason := rr.2.1 }
            | _, _, _ => none
          | _ => none
        | _ => none
      | none =>
        -- Simple format from gainers/losers/scans.
        let priceJ := ((jlookup kvs "price").orElse
          (fun _ => jlookup kvs "close")).getD (Json.num 0)
        let cpJ := ((jlookup kvs "change_percent").orElse
          (fun _ => jlookup kvs "change")).getD (Json.num 0)
        let openJ := (jlookup kvs "open").getD priceJ
        match asNum priceJ, asNum openJ, asNum cpJ with
        | some price, some openPrice, some changePercent =>
          let rsiJ := jlookup kvs "rsi"
          if badRsi rsiJ then
            none
          else
            let sd : StockData :=
              { symbol := symbol, price := price,
                change := price - openPrice,
                changePercent := changePercent,
                rsi := optField rsiJ, sma20 := none, ema50 := none }
            let rr := calcRecommendation sd
            some { toStockData := sd,
                   recommendation := rr.1, reason := rr.2.1 }
        | _, _, _ => none
    | _ => none
  | _ => none

/-- The role of a message in the conversation trace. -/
inductive Role where
  | human : Role
  | ai : Role
  | tool : Role
deriving DecidableEq

/-- A message of the conversation trace.  `content` is `some s` when the
Python message's `content` attribute is a string (and `none` for
non-string content blocks).  `parsed` abstracts over textual JSON
parsing: it is `some j` exactly when `content` is a string whose stripped
form starts with a bracket or a brace and `json.loads` succeeds, yielding
the value modelled by `j`; it is `none` otherwise.  `toolCalls` holds the
names of the tool invocations the message requests (non-empty only on
reasoning outputs that request tools). -/
structure Message where
  role : Role
  content : Option String
  parsed : Option Json
  toolCalls : List String

/-- Does this message count as non-empty text for the response scan
(`isinstance(msg.content, str) and msg.content.strip()`)? -/
def isNonEmptyText (m : Message) : Bool :=
  match m.content with
  | some s => pyStrip s ≠ ""
  | none => false

/-- Lines 186-195 of `query`: scan the trace backwards and return the
first string content that is non-empty after stripping; the fallback
literal if there is none. -/
def extractResponseText (msgs : List Message) : String :=
  match msgs.reverse.find? isNonEmptyText with
  | some m => m.content.getD ""
  | none => "I couldn\x27t process that request."

/-- One record step of `_extract_stocks_from_messages`: given the
accumulated (stocks, seen-symbols) pair and one parsed JSON item, add the
normalized record when the item is an object containing a `symbol` key,
normalization succeeds, and its (normalized) symbol is unseen. -/
def processRecord (acc : List StockRecord × List String) (j : Json) :
    List StockRecord × List String :=
  match j with
  | Json.obj kvs =>
    if hasKey kvs "symbol" then
      match formatStockData (Json.obj kvs) with
      | some stock =>
        if stock.symbol ∈ acc.2 then acc
        else (acc.1 ++ [stock], acc.2 ++ [stock.symbol])
      | none => acc
    else acc
  | _ => acc

/-- One message step of `_extract_stocks_from_messages`: a message whose
content parses as a JSON array contributes each of its object items in
order; one that parses as a JSON object contributes that object; anything
else (non-string content, non-JSON text, a parse failure) is skipped.
Note the code checks `hasattr(msg, 'content') and isinstance(msg.content,
str)` only — it does NOT restrict to tool messages, so the role is
ignored. -/
def processMessage (acc : List StockRecord × List String) (m : Message) :
    List StockRecord × List String :=
  match m.parsed with
  | some (Json.arr items) => items.foldl processRecord acc
  | some (Json.obj kvs) => processRecord acc (Json.obj kvs)
  | _ => acc

/-- Lines 205-237, `_extract_stocks_from_messages`: fold over the whole
trace in order, then truncate to at most 10 records. -/
def extractStocksFromMessages (msgs : List Message) : List StockRecord :=
  (msgs.foldl processMessage ([], [])).1.take 10

/-- `_should_continue` (lines 140-149): continue to the tools node iff the
last message exists and requests tool calls. -/
def shouldContinue (msgs : List Message) : Bool :=
  match msgs.getLast? with
  | some m => !m.toolCalls.isEmpty
  | none => false

/-- The compiled LangGraph loop, run with explicit fuel (LangGraph's
recursion limit): the agent node appends the reasoning output `llm msgs`;
if it requests tools, the tool node appends the tool-result messages
`tools resp` and control returns to the agent node, else the run ends.
Returns the final trace together with the number of reasoning steps
taken. -/
def runAgent (llm : List Message → Message) (tools : Message → List Message) :
    Nat → List Message → List Message × Nat
  | 0, msgs => (msgs, 0)
  | Nat.succ fuel, msgs =>
    let resp := llm msgs
    let msgs2 := msgs ++ [resp]
    if shouldContinue msgs2 then
      let r := runAgent llm tools fuel (msgs2 ++ tools resp)
      (r.1, r.2 + 1)
    else
      (msgs2, 1)

/-- The result of `PortfolioAgent.query`: the response text and the
extracted stock records. -/
structure QueryResult where
  response : String
  stocks : List StockRecord
deriving DecidableEq

/-- The initial trace of a run of `query`: a single human message holding
the user's query text. -/
def humanMessage (q : String) (qp : Option Json) : Message :=
  { role := Role.human, content := some q, parsed := qp, toolCalls := [] }

/-- `PortfolioAgent.query` (lines 163-203): run the graph on the initial
state, then assemble the response text and the stock list from the final
trace. -/
def queryRun (llm : List Message → Message) (tools : Message → List Message)
    (fuel : Nat) (q : String) (qp : Option Json) : QueryResult × Nat :=
  let r := runAgent llm tools fuel [humanMessage q qp]
  ({ response := extractResponseText r.1,
     stocks := extractStocksFromMessages r.1 }, r.2)

/-- Microseconds since local midnight of the 09:15:00.000000 session
open. -/
def sessionOpenMicros : Nat := (9 * 60 + 15) * 60 * 1000000

/-- Microseconds since local midnight of the 15:30:00.000000 session
close. -/
def sessionCloseMicros : Nat := (15 * 60 + 30) * 60 * 1000000

/-- Lines 70-81 of `_agent_node`: the market-status string embedded in the
system instruction, from the weekday (Monday = 0 .. Sunday = 6) and the
local time of day in microseconds since midnight.  `now.replace(...)`
keeps the date, so the datetime comparisons reduce to time-of-day
comparisons. -/
def marketStatus (weekday : Nat) (t : Nat) : String :=
  if weekday ≥ 5 then "CLOSED (Weekend)"
  else if sessionOpenMicros ≤ t ∧ t ≤ sessionCloseMicros then "OPEN"
  else "CLOSED"

/-! ## Specification-side definitions

These restate the spec's wording of the scoring terms, independent of the
code translation above, so that the claims relate two independently
written definitions. -/

/-- Spec wording of the RSI term: `<30` → +3; `[30,40)` → +1; `>70` → −3;
`(60,70]` → −1; else 0; absent → skipped (0). -/
def rsiTermSpec : Option ℚ → Int
  | none => 0
  | some r =>
    if r < 30 then 3
    else if 30 ≤ r ∧ r < 40 then 1
    else if 70 < r then -3
    else if 60 < r ∧ r ≤ 70 then -1
    else 0

/-- Spec wording of the RSI tag: the tag fires exactly with the nonzero
contributions (absent RSI contributes no tag). -/
def rsiTagsSpec : Option ℚ → List String
  | none => []
  | some r =>
    if r < 30 then ["oversold"]
    else if 30 ≤ r ∧ r < 40 then ["undervalued"]
    else if 70 < r then ["overbought"]
    else if 60 < r ∧ r ≤ 70 then ["overvalued"]
    else []

/-- Spec wording of the change-percent term: `>5` → −2; `(2,5]` → +1;
`<−5` → +2; `[−5,−2)` → +1; else 0. -/
def changeTermSpec (c : ℚ) : Int :=
  if 5 < c then -2
  else if 2 < c ∧ c ≤ 5 then 1
  else if c < -5 then 2
  else if -5 ≤ c ∧ c < -2 then 1
  else 0

/-- Spec wording of the change-percent tag. -/
def changeTagsSpec (c : ℚ) : List String :=
  if 5 < c then ["strong rally"]
  else if 2 < c ∧ c ≤ 5 then ["positive momentum"]
  else if c < -5 then ["big dip"]
  else if -5 ≤ c ∧ c < -2 then ["slight pullback"]
  else []

/-- The trend term exactly as claim C1 words it: it requires both `sma20`
and `ema50` present and a positive price; then price > sma20 > ema50 → +2,
price < sma20 < ema50 → −2, otherwise 0. -/
def trendTermClaim (price : ℚ) (sma20 ema50 : Option ℚ) : Int :=
  match sma20, ema50 with
  | some a, some e =>
    if 0 < price then
      if a < price ∧ e < a then 2
      else if price < a ∧ a < e then -2
      else 0
    else 0
  | _, _ => 0

/-- The trend term as the code actually behaves (amended claim): it
requires `sma20` and `ema50` present and nonzero and a nonzero price;
then price > sma20 > ema50 → +2, price < sma20 < ema50 → −2, else 0. -/
def trendTermSpec (price : ℚ) (sma20 ema50 : Option ℚ) : Int :=
  match sma20, ema50 with
  | some a, some e =>
    if a ≠ 0 ∧ e ≠ 0 ∧ price ≠ 0 then
      if a < price ∧ e < a then 2
      else if price < a ∧ a < e then -2
      else 0
    else 0
  | _, _ => 0

/-- The trend tag under the amended firing condition. -/
def trendTagsSpec (price : ℚ) (sma20 ema50 : Option ℚ) : List String :=
  match sma20, ema50 with
  | some a, some e =>
    if a ≠ 0 ∧ e ≠ 0 ∧ price ≠ 0 then
      if a < price ∧ e < a then ["strong uptrend"]
      else if price < a ∧ a < e then ["downtrend"]
      else []
    else []
  | _, _ => []

/-- Spec wording of the label rule: score ≥ 3 → BUY; score ≤ −3 → SELL;
else HOLD. -/
def labelOf (score : Int) : String :=
  if 3 ≤ score then "BUY"
  else if score ≤ -3 then "SELL"
  else "HOLD"

/-- The label-specific lead-in of the reason string. -/
def reasonHead (label : String) : String :=
  if label = "BUY" then "Good opportunity - "
  else if label = "SELL" then "Take profits - "
  else "Mixed signals - "

/-- The label-specific fallback reason when no tags fired. -/
def reasonFallback (label : String) : String :=
  if label = "BUY" then "Good value"
  else if label = "SELL" then "Overpriced"
  else "Stable, wait and see"

/-- The concatenated contributing tags of a snapshot, in term order (RSI,
then change, then trend). -/
def tagsSpec (s : StockData) : List String :=
  rsiTagsSpec s.rsi ++ changeTagsSpec s.changePercent
    ++ trendTagsSpec s.price s.sma20 s.ema50

/-- The spec-side total score of a snapshot: the sum of the three
independent terms. -/
def totalScoreSpec (s : StockData) : Int :=
  rsiTermSpec s.rsi + changeTermSpec s.changePercent
    + trendTermSpec s.price s.sma20 s.ema50

/-! ## Decomposition of the code's accumulating blocks -/

theorem rsiBlock_eq (rsi : Option ℚ) (acc : Int × List String) :
    rsiBlock rsi acc = (acc.1 + rsiTermSpec rsi, acc.2 ++ rsiTagsSpec rsi) := by
  rcases rsi with _ | r
  · simp [rsiBlock, rsiTermSpec, rsiTagsSpec]
  · simp only [rsiBlock, rsiTermSpec, rsiTagsSpec]
    split_ifs
    all_goals (try rfl)
    all_goals (try simp)
    all_goals exfalso
    all_goals simp only [not_and_or, not_lt, not_le] at *
    all_goals (try casesm* _ ∨ _)
    all_goals linarith

theorem changeBlock_eq (c : ℚ) (acc : Int × List String) :
    changeBlock c acc = (acc.1 + changeTermSpec c, acc.2 ++ changeTagsSpec c) := by
  simp only [changeBlock, changeTermSpec, changeTagsSpec]
  split_ifs
  all_goals (try rfl)
  all_goals (try simp)
  all_goals exfalso
  all_goals simp only [not_and_or, not_lt, not_le] at *
  all_goals (try casesm* _ ∨ _)
  all_goals linarith

theorem trendBlock_eq (p : ℚ) (a e : Option ℚ) (acc : Int × List String) :
    trendBlock p a e acc =
      (acc.1 + trendTermSpec p a e, acc.2 ++ trendTagsSpec p a e) := by
  rcases a with _ | a <;> rcases e with _ | e <;>
    simp only [trendBlock, trendTermSpec, trendTagsSpec]
  · simp
  · simp
  · simp
  · split_ifs
    all_goals (try rfl)
    all_goals (try simp)
    all_goals exfalso
    all_goals simp only [not_and_or, not_lt, not_le] at *
    all_goals (try casesm* _ ∨ _)
    all_goals linarith

/-- The accumulated pair of `_calculate_recommendation` decomposes into
the sum of the three spec-side terms and the concatenation of the
spec-side tags. -/
theorem scoreAndReasons_eq (s : StockData) :
    scoreAndReasons s = (totalScoreSpec s, tagsSpec s) := by
  simp only [scoreAndReasons, totalScoreSpec, tagsSpec, rsiBlock_eq,
    changeBlock_eq, trendBlock_eq]
  simp [add_assoc]

lemma rsiTermSpec_pos (r : ℚ) : 0 < rsiTermSpec (some r) ↔ r < 40 := by
  simp only [rsiTermSpec]
  split_ifs with h1 h2 h3 h4
  · exact iff_of_true (by norm_num) (by linarith)
  · exact iff_of_true (by norm_num) h2.2
  · exact iff_of_false (by norm_num) (fun h => by linarith)
  · exact iff_of_false (by norm_num)
      (fun h => by obtain ⟨ha, hb⟩ := h4; linarith)
  · exact iff_of_false (by norm_num) (fun h => h2 ⟨not_lt.mp h1, h⟩)

lemma rsiTermSpec_neg (r : ℚ) : rsiTermSpec (some r) < 0 ↔ 60 < r := by
  simp only [rsiTermSpec]
  split_ifs with h1 h2 h3 h4
  · exact iff_of_false (by norm_num) (fun h => by linarith)
  · exact iff_of_false (by norm_num)
      (fun h => by obtain ⟨ha, hb⟩ := h2; linarith)
  · exact iff_of_true (by norm_num) (by linarith)
  · exact iff_of_true (by norm_num) h4.1
  · exact iff_of_false (by norm_num)
      (fun h => h4 ⟨h, not_lt.mp h3⟩)

/-- Inputs exhibiting the deviation of the code's trend guard from claim
C1's wording.  For `cxC1a`, the code fires "strong uptrend" on a negative
price; for `cxC1b`, a present-but-zero `sma20` stops the code's trend term
although the claim's comparisons would fire.  -/
def cxC1a : StockData :=
  { symbol := "X", price := -1, change := 0, changePercent := -3,
    rsi := none, sma20 := some (-2), ema50 := some (-3) }

/-- Companion input for the zero-`sma20` deviation (see `cxC1a`). -/
def cxC1b : StockData :=
  { symbol := "Y", price := 5, change := 0, changePercent := 0,
    rsi := none, sma20 := some 0, ema50 := some (-1) }

/-- C1, counterexample: the recommendation score is NOT the sum of the
three terms as claim C1 words the trend term ("requires … a positive
price", zero values participating).  On `cxC1a` the code scores 3 and
labels BUY, while the claim's sum is 1 (label HOLD); on `cxC1b` the code
scores 0 while the claim's sum is 2. -/
theorem c1_score_decomposition_counterexample :
    (calcRecommendation cxC1a).2.2 = 3 ∧
    rsiTermSpec cxC1a.rsi + changeTermSpec cxC1a.changePercent
      + trendTermClaim cxC1a.price cxC1a.sma20 cxC1a.ema50 = 1 ∧
    (calcRecommendation cxC1a).1 = "BUY" ∧
    labelOf 1 = "HOLD" ∧
    (calcRecommendation cxC1b).2.2 = 0 ∧
    rsiTermSpec cxC1b.rsi + changeTermSpec cxC1b.changePercent
      + trendTermClaim cxC1b.price cxC1b.sma20 cxC1b.ema50 = 2 := by
  decide

/-- Closed form of `_calculate_recommendation`: label from `labelOf`,
reason from head/tags/fallback, score from the term sum. -/
lemma calcRecommendation_eq (s : StockData) :
    calcRecommendation s =
      (labelOf (totalScoreSpec s),
       (if (tagsSpec s).isEmpty then reasonFallback (labelOf (totalScoreSpec s))
        else reasonHead (labelOf (totalScoreSpec s))
          ++ joinComma ((tagsSpec s).take 2)),
       totalScoreSpec s) := by
  simp only [calcRecommendation, scoreAndReasons_eq, labelOf, reasonHead,
    reasonFallback, ge_iff_le]
  split_ifs <;> simp_all

/-- C1, amended: for every snapshot the score returned by
`_calculate_recommendation` is the sum of the three independent terms —
with the trend term requiring `sma20` and `ema50` present and NONZERO and
a NONZERO price — and the label is BUY iff score ≥ 3, SELL iff
score ≤ −3, HOLD otherwise.  The function is a pure Lean function, hence
deterministic. -/
theorem c1_score_decomposition (s : StockData) :
    (calcRecommendation s).2.2 = totalScoreSpec s ∧
    (calcRecommendation s).1 = labelOf (totalScoreSpec s) := by
  simp only [calcRecommendation, scoreAndReasons_eq, labelOf, ge_iff_le]
  split_ifs <;> simp_all

/-- C9: in isolation (starting from a zero accumulator), the RSI block of
`_calculate_recommendation` contributes a strictly positive score iff
rsi < 40, and a strictly negative score iff rsi > 60. -/
theorem c9_rsi_term_sign (r : ℚ) :
    (0 < (rsiBlock (some r) (0, ([] : List String))).1 ↔ r < 40) ∧
    ((rsiBlock (some r) (0, ([] : List String))).1 < 0 ↔ 60 < r) := by
  rw [rsiBlock_eq]
  simpa using ⟨rsiTermSpec_pos r, rsiTermSpec_neg r⟩

/-- C5: the reason string is the label-specific lead-in followed by the
first two contributing tags (in term order: RSI, change, trend) joined by
a comma, or the label-specific fallback when no tags fired. -/
theorem c5_reason_string (s : StockData) :
    (calcRecommendation s).2.1 =
      (if (tagsSpec s).isEmpty then
        reasonFallback ((calcRecommendation s).1)
      else
        reasonHead ((calcRecommendation s).1)
          ++ joinComma ((tagsSpec s).take 2)) := by
  rw [calcRecommendation_eq]

lemma rsiTagsSpec_nil (x : Option ℚ) (h : rsiTagsSpec x = []) :
    rsiTermSpec x = 0 := by
  rcases x with _ | r
  · rfl
  · simp only [rsiTagsSpec] at h
    simp only [rsiTermSpec]
    split_ifs at h ⊢ <;> simp_all

lemma changeTagsSpec_nil (c : ℚ) (h : changeTagsSpec c = []) :
    changeTermSpec c = 0 := by
  simp only [changeTagsSpec] at h
  simp only [changeTermSpec]
  split_ifs at h ⊢ <;> simp_all

lemma trendTagsSpec_nil (p : ℚ) (a e : Option ℚ)
    (h : trendTagsSpec p a e = []) : trendTermSpec p a e = 0 := by
  rcases a with _ | a <;> rcases e with _ | e <;>
    simp only [trendTagsSpec] at h <;> simp only [trendTermSpec]
  split_ifs at h ⊢ <;> simp_all

/-- When no tag fired, every term is zero, hence the score is zero. -/
lemma tagsSpec_nil (s : StockData) (h : tagsSpec s = []) :
    totalScoreSpec s = 0 := by
  simp only [tagsSpec, List.append_eq_nil] at h
  obtain ⟨⟨h1, h2⟩, h3⟩ := h
  simp [totalScoreSpec, rsiTagsSpec_nil _ h1, changeTagsSpec_nil _ h2,
    trendTagsSpec_nil _ _ _ h3]

lemma append_ne_of_length_lt (a b x : String) (h : b.length < a.length) :
    a ++ x ≠ b := by
  intro he
  have hl := congrArg String.length he
  rw [String.length_append] at hl
  omega

/-- C10: whenever the computed label is BUY or SELL, at least one
contributing tag fired, the reason is the corresponding lead-in with the
first two tags, and the no-tag fallbacks "Good value" and "Overpriced"
are unreachable. -/
theorem c10_fallbacks_unreachable (s : StockData)
    (h : (calcRecommendation s).1 = "BUY" ∨ (calcRecommendation s).1 = "SELL") :
    (scoreAndReasons s).2 ≠ [] ∧
    ((calcRecommendation s).1 = "BUY" →
      (calcRecommendation s).2.1 =
        "Good opportunity - " ++ joinComma ((scoreAndReasons s).2.take 2)) ∧
    ((calcRecommendation s).1 = "SELL" →
      (calcRecommendation s).2.1 =
        "Take profits - " ++ joinComma ((scoreAndReasons s).2.take 2)) ∧
    (calcRecommendation s).2.1 ≠ "Good value" ∧
    (calcRecommendation s).2.1 ≠ "Overpriced" := by
  have hscore : totalScoreSpec s ≠ 0 := by
    intro h0
    rw [calcRecommendation_eq] at h
    simp only [labelOf, h0] at h
    norm_num at h
    rcases h with h | h <;> simp_all
  have htags : ¬(tagsSpec s).isEmpty := by
    intro hemp
    exact hscore (tagsSpec_nil s (by simpa using hemp))
  have hsr : (scoreAndReasons s).2 = tagsSpec s := by
    rw [scoreAndReasons_eq]
  refine ⟨?_, ?_, ?_, ?_, ?_⟩
  · rw [hsr]; simpa using htags
  · intro hb
    rw [calcRecommendation_eq] at hb ⊢
    simp only [htags, if_false, Bool.false_eq_true, ite_false, hsr]
    simp only [labelOf] at hb ⊢
    split_ifs at hb ⊢ <;> simp_all [reasonHead]
  · intro hb
    rw [calcRecommendation_eq] at hb ⊢
    simp only [htags, if_false, Bool.false_eq_true, ite_false, hsr]
    simp only [labelOf] at hb ⊢
    split_ifs at hb ⊢ <;> simp_all [reasonHead]
  · rw [calcRecommendation_eq]
    simp only [htags, Bool.false_eq_true, ite_false]
    apply append_ne_of_length_lt
    simp only [reasonHead]
    split_ifs <;> decide
  · rw [calcRecommendation_eq]
    simp only [htags, Bool.false_eq_true, ite_false]
    apply append_ne_of_length_lt
    simp only [reasonHead]
    split_ifs <;> decide

/-- The spec's end-to-end scenario 1 snapshot: rsi 25, change 1%. -/
def wC10 : StockData :=
  { symbol := "X", price := 10, change := 0, changePercent := 1,
    rsi := some 25, sma20 := none, ema50 := none }

/-- Witness for `c10_fallbacks_unreachable`: the spec's scenario 1
snapshot (rsi 25, change 1%) labels BUY with the "oversold" tag. -/
theorem c10_fallbacks_unreachable_witness :
    (scoreAndReasons wC10).2 ≠ [] ∧
    ((calcRecommendation wC10).1 = "BUY" →
      (calcRecommendation wC10).2.1 =
        "Good opportunity - " ++ joinComma ((scoreAndReasons wC10).2.take 2)) ∧
    ((calcRecommendation wC10).1 = "SELL" →
      (calcRecommendation wC10).2.1 =
        "Take profits - " ++ joinComma ((scoreAndReasons wC10).2.take 2)) ∧
    (calcRecommendation wC10).2.1 ≠ "Good value" ∧
    (calcRecommendation wC10).2.1 ≠ "Overpriced" :=
  c10_fallbacks_unreachable wC10 (Or.inl (by decide))

/-- Snapshot with a present-but-zero `sma20`: the claim's reading makes
the trend comparisons fire (price −1 < sma20 0 < ema50 5, a downtrend),
but the code's truthiness guard skips the term. -/
def cxC8 : StockData :=
  { symbol := "Z", price := -1, change := 0, changePercent := 0,
    rsi := none, sma20 := some 0, ema50 := some 5 }

/-- `cxC8` with `sma20` absent instead of present-but-zero. -/
def cxC8abs : StockData :=
  { symbol := "Z", price := -1, change := 0, changePercent := 0,
    rsi := none, sma20 := none, ema50 := some 5 }

/-- C8, counterexample: for the `sma20` field the code does NOT treat
present-but-zero differently from absent.  On `cxC8` (sma20 present as 0,
with price −1 < 0 < ema50 5, so the trend comparisons would fire a
downtrend if zero participated) the output is identical to the absent
variant `cxC8abs`: the trend term is skipped in both. -/
theorem c8_zero_vs_absent_counterexample :
    calcRecommendation cxC8 = calcRecommendation cxC8abs ∧
    calcRecommendation cxC8 = ("HOLD", "Stable, wait and see", 0) ∧
    cxC8.sma20 = some 0 ∧ cxC8.ema50 = some 5 ∧ cxC8.price < 0 := by
  decide

lemma trendTermSpec_zero_a (p : ℚ) (e : Option ℚ) :
    trendTermSpec p (some 0) e = trendTermSpec p none e := by
  rcases e with _ | e <;> simp [trendTermSpec]

lemma trendTagsSpec_zero_a (p : ℚ) (e : Option ℚ) :
    trendTagsSpec p (some 0) e = trendTagsSpec p none e := by
  rcases e with _ | e <;> simp [trendTagsSpec]

lemma trendTermSpec_zero_e (p : ℚ) (a : Option ℚ) :
    trendTermSpec p a (some 0) = trendTermSpec p a none := by
  rcases a with _ | a <;> simp [trendTermSpec]

lemma trendTagsSpec_zero_e (p : ℚ) (a : Option ℚ) :
    trendTagsSpec p a (some 0) = trendTagsSpec p a none := by
  rcases a with _ | a <;> simp [trendTagsSpec]

/-- C8, amended: the RSI term does distinguish absent from
present-but-zero (rsi = 0 is oversold: it always adds 3 to the score and
fires a tag that the absent case lacks), but for `sma20` and `ema50` a
present-but-zero value is treated exactly like an absent one — the
truthiness guard skips the trend term either way, and the outputs are
identical. -/
theorem c8_absent_vs_zero (s : StockData) :
    calcRecommendation { s with sma20 := some 0 } =
      calcRecommendation { s with sma20 := none } ∧
    calcRecommendation { s with ema50 := some 0 } =
      calcRecommendation { s with ema50 := none } ∧
    (calcRecommendation { s with rsi := some 0 }).2.2 =
      (calcRecommendation { s with rsi := none }).2.2 + 3 ∧
    (scoreAndReasons { s with rsi := some 0 }).2 ≠
      (scoreAndReasons { s with rsi := none }).2 := by
  refine ⟨?_, ?_, ?_, ?_⟩
  · rw [calcRecommendation_eq, calcRecommendation_eq]
    simp [totalScoreSpec, tagsSpec, trendTermSpec_zero_a, trendTagsSpec_zero_a]
  · rw [calcRecommendation_eq, calcRecommendation_eq]
    simp [totalScoreSpec, tagsSpec, trendTermSpec_zero_e, trendTagsSpec_zero_e]
  · rw [calcRecommendation_eq, calcRecommendation_eq]
    simp only [totalScoreSpec]
    have h0 : rsiTermSpec (some 0) = 3 := by norm_num [rsiTermSpec]
    have h1 : rsiTermSpec none = 0 := rfl
    simp [h0, h1]
    try ring
  · rw [scoreAndReasons_eq, scoreAndReasons_eq]
    simp only [tagsSpec]
    intro h
    have hl := congrArg List.length h
    have h0 : rsiTagsSpec (some 0) = ["oversold"] := by norm_num [rsiTagsSpec]
    have h1 : rsiTagsSpec (none : Option ℚ) = [] := rfl
    simp only [h0, h1, List.length_append] at hl
    simp at hl
    try omega

/-- C6: the market-status string embedded in the system instruction is
"OPEN" exactly on a weekday (Monday..Friday) with the local time of day
inside the 09:15–15:30 session window; otherwise it is one of the two
closed statuses. -/
theorem c6_market_status (wd t : Nat) :
    (marketStatus wd t = "OPEN" ↔
      (wd < 5 ∧ sessionOpenMicros ≤ t ∧ t ≤ sessionCloseMicros)) ∧
    (¬(wd < 5 ∧ sessionOpenMicros ≤ t ∧ t ≤ sessionCloseMicros) →
      marketStatus wd t = "CLOSED (Weekend)" ∨ marketStatus wd t = "CLOSED") := by
  unfold marketStatus
  split_ifs with h1 h2
  · constructor
    · constructor
      · intro h; exact absurd h (by decide)
      · intro h; omega
    · intro _; exact Or.inl rfl
  · constructor
    · exact iff_of_true rfl ⟨by omega, h2⟩
    · intro h; exact absurd ⟨by omega, h2⟩ h
  · constructor
    · constructor
      · intro h; exact absurd h (by decide)
      · intro h; exact absurd h.2 h2
    · intro _; exact Or.inr rfl

/-- Witness for `c6_market_status`: 11:06:40 on a Wednesday (weekday 2)
is OPEN, and any Sunday instant is a closed status. -/
theorem c6_market_status_witness :
    marketStatus 2 40000000000 = "OPEN" ∧
    (marketStatus 6 40000000000 = "CLOSED (Weekend)" ∨
      marketStatus 6 40000000000 = "CLOSED") :=
  ⟨(c6_market_status 2 40000000000).1.mpr (by decide),
   (c6_market_status 6 40000000000).2 (by decide)⟩

/-- Spec-side "most recent non-empty text" selection: a left fold where a
later non-empty text overrides an earlier one. -/
def lastTextSpec (msgs : List Message) : Option String :=
  msgs.foldl (fun acc m => if isNonEmptyText m then m.content else acc) none

lemma foldl_lastText (l : List Message) (acc : Option String) :
    l.foldl (fun a m => if isNonEmptyText m then m.content else a) acc =
      (match l.reverse.find? isNonEmptyText with
       | some m => m.content
       | none => acc) := by
  induction l generalizing acc with
  | nil => simp
  | cons m t ih =>
    simp only [List.foldl_cons, List.reverse_cons, List.find?_append, ih]
    cases hf : t.reverse.find? isNonEmptyText with
    | some m' => simp [Option.or]
    | none =>
      cases hm : isNonEmptyText m <;>
        simp [Option.or, List.find?, hm]

/-- C3: the response text is the content of the most recent message whose
content is non-empty text (a later such message always wins), and the
fallback literal when there is none. -/
theorem c3_response_text (msgs : List Message) :
    extractResponseText msgs =
      (lastTextSpec msgs).getD "I couldn\x27t process that request." := by
  unfold extractResponseText lastTextSpec
  rw [foldl_lastText]
  cases hf : msgs.reverse.find? isNonEmptyText with
  | none => simp
  | some m =>
    have hp := List.find?_some hf
    rcases hm : m.content with _ | s
    · unfold isNonEmptyText at hp
      rw [hm] at hp
      simp at hp
    · simp [hm]

/-! ## Spec-side response assembler -/

/-- A well-formed record in the assembler's sense: a JSON object
containing a `symbol` field. -/
def wellFormedRecord (j : Json) : Bool :=
  match j with
  | Json.obj kvs => hasKey kvs "symbol"
  | _ => false

/-- The well-formed records a single message contributes: the object
items of a parsed array, a parsed object itself, nothing otherwise. -/
def recordsOfMessage (m : Message) : List Json :=
  match m.parsed with
  | some (Json.arr items) => items.filter wellFormedRecord
  | some (Json.obj kvs) =>
    if hasKey kvs "symbol" then [Json.obj kvs] else []
  | _ => []

/-- Keep the first record seen per distinct (normalized) symbol, in
insertion order. -/
def dedupBySymbol (l : List StockRecord) : List StockRecord :=
  l.foldl
    (fun acc r =>
      if r.symbol ∈ acc.map (fun x => x.symbol) then acc else acc ++ [r])
    []

/-- The spec-side assembler over an explicit message filter: collect the
well-formed records of the selected messages in original order, normalize
each, keep the first record per distinct symbol, truncate to 10. -/
def assembleOver (msgs : List Message) : List StockRecord :=
  (dedupBySymbol
    ((msgs.flatMap recordsOfMessage).filterMap formatStockData)).take 10

/-- The assembler exactly as claim C2 words it: scan only the tool-result
messages. -/
def assembleToolOnly (msgs : List Message) : List StockRecord :=
  assembleOver (msgs.filter (fun m => m.role == Role.tool))

/-- Adding one already-normalized record to the accumulated pair, with
first-wins dedup by symbol. -/
def pushRecord (acc : List StockRecord × List String) (r : StockRecord) :
    List StockRecord × List String :=
  if r.symbol ∈ acc.2 then acc else (acc.1 ++ [r], acc.2 ++ [r.symbol])

lemma processRecord_not_wf (acc : List StockRecord × List String)
    (j : Json) (h : wellFormedRecord j = false) :
    processRecord acc j = acc := by
  rcases j <;> simp_all [processRecord, wellFormedRecord]

lemma processRecord_wf (acc : List StockRecord × List String)
    (j : Json) (h : wellFormedRecord j = true) :
    processRecord acc j =
      (match formatStockData j with
       | some r => pushRecord acc r
       | none => acc) := by
  rcases j with _ | _ | _ | _ | kvs <;> simp_all [processRecord,
    wellFormedRecord, pushRecord]

lemma foldl_processRecord_filter (items : List Json)
    (acc : List StockRecord × List String) :
    items.foldl processRecord acc =
      (items.filter wellFormedRecord).foldl processRecord acc := by
  induction items generalizing acc with
  | nil => rfl
  | cons j t ih =>
    rw [List.foldl_cons, List.filter_cons]
    cases hw : wellFormedRecord j with
    | true => simp [List.foldl_cons, ih]
    | false => rw [processRecord_not_wf acc j hw]; simp [ih]

lemma processMessage_eq (acc : List StockRecord × List String)
    (m : Message) :
    processMessage acc m = (recordsOfMessage m).foldl processRecord acc := by
  rcases m with ⟨role, content, parsed, toolCalls⟩
  rcases parsed with _ | j
  · rfl
  · rcases j with _ | _ | _ | items | kvs
    · rfl
    · rfl
    · rfl
    · simpa [processMessage, recordsOfMessage] using
        foldl_processRecord_filter items acc
    · simp only [processMessage, recordsOfMessage]
      cases hk : hasKey kvs "symbol" with
      | true => simp
      | false =>
        rw [processRecord_not_wf acc (Json.obj kvs)
          (by simp [wellFormedRecord, hk])]
        simp

lemma foldl_processMessage_eq (msgs : List Message)
    (acc : List StockRecord × List String) :
    msgs.foldl processMessage acc =
      (msgs.flatMap recordsOfMessage).foldl processRecord acc := by
  induction msgs generalizing acc with
  | nil => rfl
  | cons m t ih =>
    rw [List.foldl_cons, List.flatMap_cons, List.foldl_append,
      processMessage_eq, ih]

lemma mem_recordsOfMessage_wf (m : Message) (j : Json)
    (h : j ∈ recordsOfMessage m) : wellFormedRecord j = true := by
  rcases m with ⟨role, content, parsed, toolCalls⟩
  rcases parsed with _ | jj
  · simp [recordsOfMessage] at h
  · rcases jj with _ | _ | _ | items | kvs
    · simp [recordsOfMessage] at h
    · simp [recordsOfMessage] at h
    · simp [recordsOfMessage] at h
    · exact (List.mem_filter.mp (by simpa [recordsOfMessage] using h)).2
    · simp only [recordsOfMessage] at h
      cases hk : hasKey kvs "symbol" with
      | true =>
        rw [hk] at h
        simp at h
        subst h
        simp [wellFormedRecord, hk]
      | false => rw [hk] at h; simp at h

lemma foldl_processRecord_eq_push (l : List Json)
    (hw : ∀ j ∈ l, wellFormedRecord j = true)
    (acc : List StockRecord × List String) :
    l.foldl processRecord acc =
      (l.filterMap formatStockData).foldl pushRecord acc := by
  induction l generalizing acc with
  | nil => rfl
  | cons j t ih =>
    rw [List.foldl_cons, List.filterMap_cons,
      processRecord_wf acc j (hw j (by simp))]
    cases hf : formatStockData j with
    | none => exact ih (fun x hx => hw x (by simp [hx])) acc
    | some r =>
      simp only [List.foldl_cons]
      exact ih (fun x hx => hw x (by simp [hx])) (pushRecord acc r)

lemma foldl_pushRecord_dedup (l : List StockRecord)
    (acc : List StockRecord) :
    (l.foldl pushRecord (acc, acc.map (fun x => x.symbol))).1 =
      l.foldl
        (fun a r =>
          if r.symbol ∈ a.map (fun x => x.symbol) then a else a ++ [r])
        acc := by
  induction l generalizing acc with
  | nil => rfl
  | cons r t ih =>
    rw [List.foldl_cons, List.foldl_cons]
    simp only [pushRecord]
    cases hm : decide (r.symbol ∈ acc.map (fun x => x.symbol)) with
    | true =>
      have hm' : r.symbol ∈ acc.map (fun x => x.symbol) := of_decide_eq_true hm
      simp only [hm', if_true, if_pos hm']
      exact ih acc
    | false =>
      have hm' : r.symbol ∉ acc.map (fun x => x.symbol) :=
        of_decide_eq_false hm
      simp only [if_neg hm']
      have : acc.map (fun x => x.symbol) ++ [r.symbol] =
          (acc ++ [r]).map (fun x => x.symbol) := by simp
      rw [this]
      exact ih (acc ++ [r])

/-- The code's one-pass extraction equals the spec-side pipeline
(flatten, filter well-formed, normalize, dedup first-wins, truncate),
scanning ALL messages. -/
lemma extractStocks_eq_assembleOver (msgs : List Message) :
    extractStocksFromMessages msgs = assembleOver msgs := by
  unfold extractStocksFromMessages assembleOver dedupBySymbol
  rw [foldl_processMessage_eq,
    foldl_processRecord_eq_push _
      (fun j hj => by
        obtain ⟨m, hm, hjm⟩ := List.mem_flatMap.mp hj
        exact mem_recordsOfMessage_wf m j hjm)]
  have h := foldl_pushRecord_dedup
    ((msgs.flatMap recordsOfMessage).filterMap formatStockData) []
  simpa using congrArg (fun l => List.take 10 l) h

section ConcreteEvaluation

-- Rational subtraction is irreducible by default; concrete runs of the
-- normalizer (which computes change = price - open) are evaluated by
-- kernel reduction here.
attribute [local semireducible] Rat.sub

/-- A minimal raw record: a symbol and a price. -/
def objSym (s : String) (p : ℚ) : Json :=
  Json.obj [("symbol", Json.str s), ("price", Json.num p)]

/-- The stock record that `_format_stock_data` produces from
`objSym s p`: change percent and indicators default, score 0, HOLD. -/
def recOf (s : String) (p : ℚ) : StockRecord :=
  { symbol := s, price := p, change := 0, changePercent := 0,
    rsi := none, sma20 := none, ema50 := none,
    recommendation := "HOLD", reason := "Stable, wait and see" }

/-- A human (non-tool) message whose content happens to be a JSON record:
the code's extraction scans it all the same. -/
def cxC2human : Message :=
  { role := Role.human,
    content := some "\x7b\"symbol\": \"HUMN\"\x7d",
    parsed := some (Json.obj [("symbol", Json.str "HUMN")]),
    toolCalls := [] }

/-- C2, counterexample: the stocks list is NOT built from tool-result
messages only.  A trace consisting of a single human message carrying a
JSON record yields that record, whereas the claim's tool-only scan yields
nothing. -/
theorem c2_tool_only_counterexample :
    extractStocksFromMessages [cxC2human] = [recOf "HUMN" 0] ∧
    assembleToolOnly [cxC2human] = [] ∧
    [recOf "HUMN" 0] ≠ ([] : List StockRecord) := by
  refine ⟨by decide, by decide, by decide⟩

/-- A tool message whose array carries records for symbols A, B, A, C in
that order with differing data. -/
def cxC2dedupMsg : Message :=
  { role := Role.tool,
    content := some "[...]",
    parsed := some (Json.arr
      [objSym "A" 10, objSym "B" 20, objSym "A" 99, objSym "C" 30]),
    toolCalls := [] }

/-- A tool message whose array carries 15 records with distinct
symbols. -/
def cxC2truncMsg : Message :=
  { role := Role.tool,
    content := some "[...]",
    parsed := some (Json.arr
      (["S01", "S02", "S03", "S04", "S05", "S06", "S07", "S08", "S09",
        "S10", "S11", "S12", "S13", "S14", "S15"].map
        (fun s => objSym s 1))),
    toolCalls := [] }

/-- C2, amended: the assembled stocks list scans ALL messages (of any
role) in original order, parses each message's string content as a
record or list of records, keeps only well-formed records with a
`symbol` field, normalizes each, keeps the first record per distinct
symbol, and truncates to at most 10 entries.  In particular the
[A, B, A, C] trace yields A (first-seen version), B, C, and 15 distinct
symbols yield exactly 10 records. -/
theorem c2_assembler (msgs : List Message) :
    extractStocksFromMessages msgs = assembleOver msgs ∧
    (extractStocksFromMessages msgs).length ≤ 10 ∧
    extractStocksFromMessages [cxC2dedupMsg] =
      [recOf "A" 10, recOf "B" 20, recOf "C" 30] ∧
    (extractStocksFromMessages [cxC2truncMsg]).length = 10 := by
  refine ⟨extractStocks_eq_assembleOver msgs, ?_, by decide, by decide⟩
  unfold extractStocksFromMessages
  rw [List.length_take]
  exact min_le_left _ _

/-- C4, counterexample: a payload missing the `symbol` field does NOT
make the normalizer return null — `raw_data.get('symbol', '')` defaults
to the empty string and a full record (symbol "", price 0, HOLD) is
returned.  (Such payloads are dropped earlier, by the caller's
`'symbol' in item` check.) -/
theorem c4_missing_symbol_counterexample :
    formatStockData (Json.obj []) =
      some { symbol := "", price := 0, change := 0, changePercent := 0,
             rsi := none, sma20 := none, ema50 := none,
             recommendation := "HOLD", reason := "Stable, wait and see" } ∧
    formatStockData (Json.obj []) ≠ none := by
  refine ⟨by decide, by decide⟩

lemma jlookup_eq_none_of_not_hasKey (kvs : List (String × Json))
    (k : String) (h : hasKey kvs k = false) : jlookup kvs k = none := by
  unfold jlookup
  rw [List.find?_eq_none.mpr]
  · rfl
  · intro p hp
    have := (List.any_eq_false.mp h) p hp
    simpa using this

/-- C4, amended: the normalizer returns null when the `symbol` value is
present but not a string, or when the price value is non-numeric (the
internal exception is caught and `None` returned); a payload missing the
`symbol` field is never given to the normalizer by
`_extract_stocks_from_messages` — its `'symbol' in item` check drops the
record first.  No exception escapes the boundary (the embedding is a
total function into `Option`). -/
theorem c4_normalizer_failures (kvs : List (String × Json)) :
    (∀ v, jlookup kvs "symbol" = some v → (∀ s, v ≠ Json.str s) →
      formatStockData (Json.obj kvs) = none) ∧
    (∀ v, jlookup kvs "price_data" = none → jlookup kvs "price" = some v →
      asNum v = none → formatStockData (Json.obj kvs) = none) ∧
    (hasKey kvs "symbol" = false →
      ∀ acc, processRecord acc (Json.obj kvs) = acc) := by
  refine ⟨?_, ?_, ?_⟩
  · intro v hv hns
    rcases v with _ | q | s | items | fields
    · simp [formatStockData, hv]
    · simp [formatStockData, hv]
    · exact absurd rfl (hns s)
    · simp [formatStockData, hv]
    · simp [formatStockData, hv]
  · intro v hpd hp hnum
    rcases hsym : jlookup kvs "symbol" with _ | sv
    · simp [formatStockData, hsym, hpd, hp, hnum]
    · rcases sv with _ | q | s | items | fields
      · simp [formatStockData, hsym]
      · simp [formatStockData, hsym]
      · simp [formatStockData, hsym, hpd, hp, hnum]
      · simp [formatStockData, hsym]
      · simp [formatStockData, hsym]
  · intro h acc
    simp [processRecord, h]

/-- Witness for `c4_normalizer_failures`: a numeric `symbol` value is
rejected, a string price is rejected, and the caller skips a record with
no `symbol` key. -/
theorem c4_normalizer_failures_witness :
    formatStockData (Json.obj [("symbol", Json.num 5)]) = none ∧
    formatStockData
      (Json.obj [("symbol", Json.str "ABC"), ("price", Json.str "n/a")]) =
      none ∧
    processRecord (([], []) : List StockRecord × List String)
      (Json.obj [("price", Json.num 1)]) = ([], []) := by
  refine ⟨?_, ?_, ?_⟩
  · exact (c4_normalizer_failures [("symbol", Json.num 5)]).1
      (Json.num 5) rfl (fun s h => Json.noConfusion h)
  · exact (c4_normalizer_failures
      [("symbol", Json.str "ABC"), ("price", Json.str "n/a")]).2.1
      (Json.str "n/a") rfl rfl rfl
  · exact (c4_normalizer_failures [("price", Json.num 1)]).2.2
      rfl (([], []) : List StockRecord × List String)

/-- A reasoning step that requests no tools and answers with plain
text. -/
def wC7llm : List Message → Message := fun _ =>
  { role := Role.ai, content := some "All good.", parsed := none,
    toolCalls := [] }

/-- A tool executor (never reached in the no-tools scenario). -/
def wC7tools : Message → List Message := fun _ => []

/-- A user query that is itself a JSON record. -/
def cxC7q : String := "\x7b\"symbol\": \"OGDC\"\x7d"

/-- The parse of `cxC7q`. -/
def cxC7qp : Option Json := some (Json.obj [("symbol", Json.str "OGDC")])

/-- C7, counterexample: in a conversation whose reasoning step requests
no tools the loop does end after exactly one reasoning step, but the
returned stocks list need NOT be empty — the extraction scans every
message, so a user query that happens to be a JSON record is returned as
a stock. -/
theorem c7_stocks_counterexample :
    (runAgent wC7llm wC7tools 25 [humanMessage cxC7q cxC7qp]).2 = 1 ∧
    (queryRun wC7llm wC7tools 25 cxC7q cxC7qp).1.stocks =
      [recOf "OGDC" 0] ∧
    [recOf "OGDC" 0] ≠ ([] : List StockRecord) := by
  refine ⟨by decide, by decide, by decide⟩

/-- C7, amended: if the reasoning step's output declares no tool
invocation requests, the loop terminates after exactly one reasoning
step and the trace is the initial message plus that output; its text (if
non-empty) is the returned response; and the stocks list is empty
PROVIDED no message content in the trace parses as JSON (in particular,
the user query is not itself a JSON record). -/
theorem c7_no_tools (llm : List Message → Message)
    (tools : Message → List Message) (fuel : Nat) (q : String)
    (qp : Option Json)
    (h : (llm [humanMessage q qp]).toolCalls = []) :
    runAgent llm tools (fuel + 1) [humanMessage q qp] =
      ([humanMessage q qp, llm [humanMessage q qp]], 1) ∧
    (qp = none → (llm [humanMessage q qp]).parsed = none →
      extractStocksFromMessages
        [humanMessage q qp, llm [humanMessage q qp]] = []) ∧
    (isNonEmptyText (llm [humanMessage q qp]) = true →
      extractResponseText [humanMessage q qp, llm [humanMessage q qp]] =
        (llm [humanMessage q qp]).content.getD "") := by
  refine ⟨?_, ?_, ?_⟩
  · simp [runAgent, shouldContinue, h]
  · intro h1 h2
    subst h1
    simp only [humanMessage] at h2
    simp [extractStocksFromMessages, processMessage, humanMessage, h2]
  · intro ht
    simp [extractResponseText, List.find?, ht]

/-- Witness for `c7_no_tools`: a plain-text no-tools conversation ends in
one step with the reply as response and no stocks. -/
theorem c7_no_tools_witness :
    runAgent wC7llm wC7tools 25 [humanMessage "hello" none] =
      ([humanMessage "hello" none, wC7llm [humanMessage "hello" none]], 1) ∧
    extractStocksFromMessages
      [humanMessage "hello" none, wC7llm [humanMessage "hello" none]] = [] ∧
    extractResponseText
      [humanMessage "hello" none, wC7llm [humanMessage "hello" none]] =
      "All good." := by
  have h := c7_no_tools wC7llm wC7tools 24 "hello" none rfl
  exact ⟨h.1, h.2.1 rfl rfl, by simpa using h.2.2 (by decide)⟩

end ConcreteEvaluation

